import Mathlib

/-!
Verification development for the Hospital-EMR PDF processing pipeline
(src/Service/pdfProcessor.js).  JavaScript strings are embedded as lists of
characters, numbers as exact rationals, fallible operations as Except, and
the JS regular expressions actually used by the code as a small regex AST
with a greedy backtracking matcher mirroring the semantics of the concrete
patterns the code builds.
-/

deriving instance DecidableEq for Except

namespace EMR

abbrev Str := List Char

def strL (s : String) : Str := s.toList

/-- The character class of the JS `\s` escape (whitespace as used by
`String.prototype.trim` and regex whitespace classes). -/
def isJsSpace (c : Char) : Bool :=
  c == ' ' || c == '\t' || c == '\n' || c == '\r' ||
  c.toNat == 11 || c.toNat == 12 ||
  c.toNat == 0xa0 || c.toNat == 0x1680 ||
  (0x2000 ≤ c.toNat && c.toNat ≤ 0x200a) ||
  c.toNat == 0x2028 || c.toNat == 0x2029 || c.toNat == 0x202f ||
  c.toNat == 0x205f || c.toNat == 0x3000 || c.toNat == 0xfeff

/-- The character class of the JS `\w` escape: ASCII letters, digits and
underscore. -/
def isWordChar (c : Char) : Bool :=
  ('a' ≤ c && c ≤ 'z') || ('A' ≤ c && c ≤ 'Z') || ('0' ≤ c && c ≤ '9') || c == '_'

/-- The allow-list of cleanExtractedText, the class `[\w\s\n\r.,;:()\-]`
(complement of the class removed on line 138 of pdfProcessor.js). -/
def isAllowedChar (c : Char) : Bool :=
  isWordChar c || isJsSpace c ||
  c == '.' || c == ',' || c == ';' || c == ':' || c == '(' || c == ')' || c == '-'

/-- ASCII lower casing, as JS toLowerCase acts on the ASCII range. -/
def jsToLower (c : Char) : Char :=
  if 'A' ≤ c && c ≤ 'Z' then Char.ofNat (c.toNat + 32) else c

def toLowerStr (l : Str) : Str := l.map jsToLower

/-- One pass of `.replace(/\s+/g, ' ')` (line 136): the flag records whether
the scan is inside a whitespace run whose single replacement space was
already emitted. -/
def collapseAux : Bool → Str → Str
  | _, [] => []
  | inRun, c :: rest =>
    if isJsSpace c then
      if inRun then collapseAux true rest else ' ' :: collapseAux true rest
    else c :: collapseAux false rest

/-- `.replace(/\s+/g, ' ')`: every maximal whitespace run becomes one space. -/
def collapseWS (l : Str) : Str := collapseAux false l

/-- Index of the last newline character of a list, if any. -/
def lastNLIdx (l : Str) : Option Nat :=
  (l.foldl (fun (st : Nat × Option Nat) c =>
    (st.1 + 1, if c = '\n' then some st.1 else st.2)) (0, none)).2

/-- Fuel-driven scan for removeEmptyLines; every step consumes at least one
character, so fuel equal to the length of the input always suffices. -/
def removeEmptyLinesGo : Nat → Str → Str
  | _, [] => []
  | 0, l => l
  | fuel + 1, c :: rest =>
    if c = '\n' then
      match lastNLIdx (rest.takeWhile isJsSpace) with
      | some k => '\n' :: removeEmptyLinesGo fuel (rest.drop (k + 1))
      | none => '\n' :: removeEmptyLinesGo fuel rest
    else c :: removeEmptyLinesGo fuel rest

/-- `.replace(/\n\s*\n/g, '\n')` (line 137).  A match starts at a newline
whose following whitespace run contains a further newline; the greedy `\s*`
backtracks to the last newline of that run, the whole match is replaced by a
single newline and scanning resumes after it. -/
def removeEmptyLines (l : Str) : Str := removeEmptyLinesGo l.length l

/-- `.replace(/[^\w\s\n\r.,;:()\-]/g, '')` (line 138). -/
def filterAllowed (l : Str) : Str := l.filter isAllowedChar

/-- Trailing-whitespace removal (the right half of JS trim). -/
def trimEnd : Str → Str
  | [] => []
  | c :: r =>
    if trimEnd r = [] then (if isJsSpace c then [] else [c])
    else c :: trimEnd r

/-- JS `String.prototype.trim`: strip leading and trailing whitespace. -/
def jsTrim (l : Str) : Str := trimEnd (l.dropWhile isJsSpace)

/-- cleanExtractedText (pdfProcessor.js lines 134-140): collapse whitespace
runs, remove empty lines, strip characters outside the allow-list, trim. -/
def cleanExtractedText (l : Str) : Str :=
  jsTrim (filterAllowed (removeEmptyLines (collapseWS l)))

/-! ## PDF type detection and extraction routing (lines 16-38 and 111-131) -/

inductive PDFType where
  | text : PDFType
  | image : PDFType
deriving DecidableEq, Repr

structure PDFInfo where
  type : PDFType
  text : Str
  pages : Nat
deriving DecidableEq, Repr

/-- checkPDFType (lines 16-38), given the text that pdf-parse recovered from
the buffer: trim it and classify as image when strictly shorter than 50
characters, text otherwise. -/
def checkPDFType (rawText : Str) (pages : Nat) : PDFInfo :=
  let extractedText := jsTrim rawText
  if extractedText.length < 50 then
    { type := PDFType.image, text := extractedText, pages := pages }
  else
    { type := PDFType.text, text := extractedText, pages := pages }

/-- Which extractor the enhanced extractText (lines 111-131) runs: the direct
text is returned only when the detector said text AND the detected text is
strictly longer than 50 characters; every other document goes to OCR. -/
inductive ExtractionMethod where
  | direct : Str → ExtractionMethod
  | ocr : ExtractionMethod
deriving DecidableEq, Repr

def extractText (rawText : Str) (pages : Nat) : ExtractionMethod :=
  let pdfInfo := checkPDFType rawText pages
  if pdfInfo.type = PDFType.text ∧ pdfInfo.text.length > 50 then
    ExtractionMethod.direct pdfInfo.text
  else
    ExtractionMethod.ocr

/-! ## A small regex engine for the patterns the code builds

All regexes in pdfProcessor.js are used with the `i` flag or are
case-insensitive by construction, so literal characters match up to ASCII
case.  Character classes are first order so that regex values, and hence
templates and field specifications, have decidable equality. -/

inductive CCls where
  | litCI : Char → CCls
  | digit : CCls
  | ws : CCls
  | colSp : CCls
  | notNL : CCls
  | word : CCls
deriving DecidableEq, Repr

def CCls.test : CCls → Char → Bool
  | CCls.litCI c, d => jsToLower d == jsToLower c
  | CCls.digit, d => '0' ≤ d && d ≤ '9'
  | CCls.ws, d => isJsSpace d
  | CCls.colSp, d => d == ':' || isJsSpace d
  | CCls.notNL, d => !(d == '\n' || d == '\r')
  | CCls.word, d => isWordChar d

inductive RE where
  | eps : RE
  | cls : CCls → RE
  | bnd : RE
  | seq : RE → RE → RE
  | alt : RE → RE → RE
  | star : RE → RE
  | opt : RE → RE
deriving DecidableEq, Repr

def RE.size : RE → Nat
  | RE.eps => 1
  | RE.cls _ => 1
  | RE.bnd => 1
  | RE.seq a b => a.size + b.size + 1
  | RE.alt a b => a.size + b.size + 1
  | RE.star a => a.size + 1
  | RE.opt a => a.size + 1

/-- JS `\b`: true when exactly one side of the current position is a word
character (`prev` is the character before the position, if any). -/
def atWordBoundary (prev : Option Char) (s : Str) : Bool :=
  let before := match prev with | none => false | some c => isWordChar c
  let after := match s with | [] => false | c :: _ => isWordChar c
  before != after

/-- Greedy backtracking matcher in continuation style.  The continuation
receives the character preceding the rest of the input (for later word
boundaries) and the unconsumed input; it returns none to force backtracking.
Quantifiers are greedy, alternatives are tried left first, and a star
iteration that consumes nothing does not repeat (JS empty-loop rule).  Fuel
only bounds the recursion and is chosen large enough for every use. -/
def matchCPS : Nat → RE → Option Char → Str → (Option Char → Str → Option Str) → Option Str
  | 0, _, _, _, _ => none
  | fuel + 1, r, prev, s, k =>
    match r with
    | RE.eps => k prev s
    | RE.cls p =>
      match s with
      | [] => none
      | c :: rest => if p.test c then k (some c) rest else none
    | RE.bnd => if atWordBoundary prev s then k prev s else none
    | RE.seq a b => matchCPS fuel a prev s (fun p2 s2 => matchCPS fuel b p2 s2 k)
    | RE.alt a b =>
      match matchCPS fuel a prev s k with
      | some res => some res
      | none => matchCPS fuel b prev s k
    | RE.star a =>
      match matchCPS fuel a prev s (fun p2 s2 =>
          if s2.length < s.length then matchCPS fuel (RE.star a) p2 s2 k else none) with
      | some res => some res
      | none => k prev s
    | RE.opt a =>
      match matchCPS fuel a prev s k with
      | some res => some res
      | none => k prev s

/-- Try to match `r` at the current position; on success return the
unconsumed remainder of the input. -/
def matchHere (r : RE) (prev : Option Char) (s : Str) : Option Str :=
  matchCPS ((r.size + 2) * (s.length + 2)) r prev s (fun _ s2 => some s2)

/-- Leftmost match scan: returns the matched substring together with the
remainder after it. -/
def firstMatchGo : RE → Option Char → Str → Option (Str × Str)
  | r, prev, s =>
    match matchHere r prev s with
    | some rem => some (s.take (s.length - rem.length), rem)
    | none =>
      match s with
      | [] => none
      | c :: rest => firstMatchGo r (some c) rest

/-- `text.match(re)[0]` for a regex with the g flag: the first (leftmost,
greedy) match, or none when the whole match call returns null. -/
def firstMatch (r : RE) (s : Str) : Option Str :=
  (firstMatchGo r none s).map Prod.fst

/-- Number of matches of a g-flagged regex (`text.match(re).length`):
repeatedly take the leftmost match and resume after it (advancing one
character past an empty match, as the JS global scan does). -/
def countMatchesGo : Nat → RE → Option Char → Str → Nat
  | 0, _, _, _ => 0
  | fuel + 1, r, prev, s =>
    match firstMatchGo r prev s with
    | none => 0
    | some (m, rem) =>
      if m.isEmpty then
        match rem with
        | [] => 1
        | c :: rest => 1 + countMatchesGo fuel r (some c) rest
      else 1 + countMatchesGo fuel r m.getLast? rem

def countMatches (r : RE) (s : Str) : Nat :=
  countMatchesGo (s.length + 1) r none s

/-! ### The concrete regexes pdfProcessor.js builds -/

/-- Case-insensitive literal for a character list. -/
def reLit (l : Str) : RE := l.foldr (fun c acc => RE.seq (RE.cls (CCls.litCI c)) acc) RE.eps

def rePlus (r : RE) : RE := RE.seq r (RE.star r)

/-- The keyword regex of identifyDisease line 159:
`\b` ++ escaped keyword ++ `\b` with flags gi.  Escaping regex
metacharacters makes every keyword character a literal, which is what reLit
produces directly. -/
def kwRE (kw : Str) : RE := RE.seq RE.bnd (RE.seq (reLit kw) RE.bnd)

def underscoreToSpace (l : Str) : Str := l.map (fun c => if c == '_' then ' ' else c)

/-- A field name with `_` replaced by `\s*` (the third generated pattern and
the label-stripping regex). -/
def nameFlexWS (l : Str) : RE :=
  l.foldr (fun c acc =>
    if c == '_' then RE.seq (RE.star (RE.cls CCls.ws)) acc
    else RE.seq (RE.cls (CCls.litCI c)) acc) RE.eps

/-- `<label>[:\s]+([^\n\r]+)` with the label already turned into a regex. -/
def textPatRE (label : RE) : RE :=
  RE.seq label (RE.seq (rePlus (RE.cls CCls.colSp)) (rePlus (RE.cls CCls.notNL)))

/-- `(\d+(?:\.\d+)?)`. -/
def numRE : RE :=
  RE.seq (rePlus (RE.cls CCls.digit))
    (RE.opt (RE.seq (RE.cls (CCls.litCI '.')) (rePlus (RE.cls CCls.digit))))

/-- `<label>[:\s]+(\d+(?:\.\d+)?)`. -/
def numPatRE (label : RE) : RE :=
  RE.seq label (RE.seq (rePlus (RE.cls CCls.colSp)) numRE)

/-- `^<name with _ -> \s*>[:\s]+`, the label prefix stripped from a text
field match (line 252). -/
def stripRE (name : Str) : RE :=
  RE.seq (nameFlexWS name) (rePlus (RE.cls CCls.colSp))

/-! ## Data model (DB/db.js, DiseaseTemplateSchema) -/

/-- A custom extraction pattern as stored in a template: the source of a JS
regex, which either compiles to a regex value or makes the RegExp
constructor throw a SyntaxError. -/
inductive PatSrc where
  | wf : RE → PatSrc
  | malformed : PatSrc
deriving DecidableEq, Repr

/-- `new RegExp(pattern, 'gi')`: yields the compiled regex or throws. -/
def compilePat : PatSrc → Except Unit RE
  | PatSrc.wf r => Except.ok r
  | PatSrc.malformed => Except.error ()

/-- A template field.  In the Mongoose schema every subfield is optional;
fieldName none models a document whose fieldName is undefined, on which
`field.fieldName.replace(...)` (and `fieldName.toLowerCase()` in
getFieldContext) throws a TypeError.  fieldType is a free string, as in the
schema; the dispatch in extractDataFromText compares it to the four known
type names and otherwise extracts nothing. -/
structure FieldSpec where
  fieldName : Option Str
  fieldType : Str
  required : Bool := false
  extractionPattern : Option PatSrc := none
deriving DecidableEq, Repr

structure DiseaseTemplate where
  diseaseName : Str
  keywords : List Str
  fields : List FieldSpec
deriving DecidableEq, Repr

/-- Result of modelled `new Date(string)` (a JS built-in, not repo code):
the constructor never throws; it produces an Invalid Date when the string is
not recognized.  validity is modelled for the slash and dash numeric shapes
the four date patterns can produce (month 1-12, day 1-31). -/
structure JSDate where
  valid : Bool
  source : Str
deriving DecidableEq, Repr

def digitsToNat (l : Str) : Nat := l.foldl (fun a c => a * 10 + (c.toNat - 48)) 0

def allDigits (l : Str) : Bool := l.all (fun c => '0' ≤ c && c ≤ '9')

/-- Validity of `new Date(s)` for the numeric separator formats.  V8 reads
`A/B/YYYY` and `A-B-YYYY` as month/day/year and `YYYY-M-D` as an ISO date;
a month outside 1..12 or a day outside 1..31 gives an Invalid Date. -/
def jsDateValid (s : Str) : Bool :=
  let three : Char → Option (Nat × Nat × Nat) := fun sep =>
    match s.splitOn sep with
    | [a, b, c] =>
      if !a.isEmpty && !b.isEmpty && !c.isEmpty &&
          allDigits a && allDigits b && allDigits c then
        some (digitsToNat a, digitsToNat b, digitsToNat c)
      else none
    | _ => none
  match three '/' with
  | some (m, d, _) => 1 ≤ m && m ≤ 12 && 1 ≤ d && d ≤ 31
  | none =>
    match three '-' with
    | some (a, b, c) =>
      if (s.takeWhile (fun ch => '0' ≤ ch && ch ≤ '9')).length = 4 then
        1 ≤ b && b ≤ 12 && 1 ≤ c && c ≤ 31
      else 1 ≤ a && a ≤ 12 && 1 ≤ b && b ≤ 31
    | none => false

def jsNewDate (s : Str) : JSDate := { valid := jsDateValid s, source := s }

/-- A typed extracted value (string, float, date, or boolean); there is no
null constructor, absent fields are simply not inserted. -/
inductive JSValue where
  | str : Str → JSValue
  | num : ℚ → JSValue
  | date : JSDate → JSValue
  | bool : Bool → JSValue
deriving DecidableEq, Repr

/-! ## Field extraction (pdfProcessor.js lines 238-352) -/

/-- The pattern fallback chain of extractTextField (lines 239-244): the
custom pattern when present (undefined is dropped by filter(Boolean)), then
the three generated label patterns.  A malformed custom pattern surfaces as
an error entry, which the per-pattern try/catch of the loop skips. -/
def textFieldPatterns (f : FieldSpec) (name : Str) : List (Except Unit RE) :=
  (match f.extractionPattern with
   | some p => [compilePat p]
   | none => []) ++
  [ Except.ok (textPatRE (reLit name)),
    Except.ok (textPatRE (reLit (underscoreToSpace name))),
    Except.ok (textPatRE (nameFlexWS name)) ]

/-- Strip the leading field-name label from a full match
(`match[0].replace(new RegExp('^' + name + '[:\s]+', 'gi'), '')`). -/
def stripLabel (name : Str) (m : Str) : Str :=
  match matchHere (stripRE name) none m with
  | some rem => rem
  | none => m

/-- The pattern loop of extractTextField (lines 246-260): first pattern
whose full match, after stripping the label prefix and trimming, is
non-empty. -/
def runTextPatterns (text : Str) (name : Str) : List (Except Unit RE) → Option Str
  | [] => none
  | Except.error _ :: rest => runTextPatterns text name rest
  | Except.ok re :: rest =>
    match firstMatch re text with
    | none => runTextPatterns text name rest
    | some m =>
      let result := jsTrim (stripLabel name m)
      if result.isEmpty then runTextPatterns text name rest else some result

/-- extractTextField (lines 238-263).  Building the generated patterns
dereferences field.fieldName, so a missing field name throws before any
pattern is tried. -/
def extractTextField (text : Str) (f : FieldSpec) : Except Unit (Option Str) :=
  match f.fieldName with
  | none => Except.error ()
  | some name => Except.ok (runTextPatterns text name (textFieldPatterns f name))

/-- First substring of `m` matching `\d+(?:\.\d+)?` (the scan of line 280
over the full match). -/
def scanNumber : Str → Option Str
  | [] => none
  | c :: rest =>
    if '0' ≤ c && c ≤ '9' then
      let ds := (c :: rest).takeWhile (fun d => '0' ≤ d && d ≤ '9')
      let after := (c :: rest).dropWhile (fun d => '0' ≤ d && d ≤ '9')
      match after with
      | '.' :: d :: _ =>
        if '0' ≤ d && d ≤ '9' then
          some (ds ++ '.' :: (after.drop 1).takeWhile (fun e => '0' ≤ e && e ≤ '9'))
        else some ds
      | _ => some ds
    else scanNumber rest

/-- parseFloat on a digits-dot-digits string, modelled exactly as a
rational. -/
def ratOfNumStr (s : Str) : ℚ :=
  let ip := s.takeWhile (fun d => '0' ≤ d && d ≤ '9')
  let fp := (s.dropWhile (fun d => '0' ≤ d && d ≤ '9')).drop 1
  (digitsToNat ip : ℚ) + (digitsToNat fp : ℚ) / (10 : ℚ) ^ fp.length

/-- The generated number patterns of lines 267-272. -/
def numFieldPatterns (f : FieldSpec) (name : Str) : List (Except Unit RE) :=
  (match f.extractionPattern with
   | some p => [compilePat p]
   | none => []) ++
  [ Except.ok (numPatRE (reLit name)),
    Except.ok (numPatRE (reLit (underscoreToSpace name))),
    Except.ok (numPatRE (nameFlexWS name)) ]

/-- The pattern loop of extractNumberField (lines 274-288): on the first
pattern that matches, the FULL match (match[0] of a g-flagged match call) is
scanned for a number; if the full match holds no digits the loop falls
through to the next pattern. -/
def runNumPatterns (text : Str) : List (Except Unit RE) → Option ℚ
  | [] => none
  | Except.error _ :: rest => runNumPatterns text rest
  | Except.ok re :: rest =>
    match firstMatch re text with
    | none => runNumPatterns text rest
    | some m =>
      match scanNumber m with
      | some ns => some (ratOfNumStr ns)
      | none => runNumPatterns text rest

/-- extractNumberField (lines 266-291). -/
def extractNumberField (text : Str) (f : FieldSpec) : Except Unit (Option ℚ) :=
  match f.fieldName with
  | none => Except.error ()
  | some name => Except.ok (runNumPatterns text (numFieldPatterns f name))

/-- `\d{1,2}`. -/
def d12RE : RE := RE.seq (RE.cls CCls.digit) (RE.opt (RE.cls CCls.digit))

/-- `\d{4}`. -/
def d4RE : RE :=
  RE.seq (RE.cls CCls.digit) (RE.seq (RE.cls CCls.digit)
    (RE.seq (RE.cls CCls.digit) (RE.cls CCls.digit)))

def monthAltRE : RE :=
  [strL "feb", strL "mar", strL "apr", strL "may", strL "jun", strL "jul",
   strL "aug", strL "sep", strL "oct", strL "nov", strL "dec"].foldl
    (fun acc m => RE.alt acc (reLit m)) (reLit (strL "jan"))

/-- The four fixed date regexes of lines 295-300, in order. -/
def datePatterns : List RE :=
  [ RE.seq d12RE (RE.seq (RE.cls (CCls.litCI '/'))
      (RE.seq d12RE (RE.seq (RE.cls (CCls.litCI '/')) d4RE))),
    RE.seq d12RE (RE.seq (RE.cls (CCls.litCI '-'))
      (RE.seq d12RE (RE.seq (RE.cls (CCls.litCI '-')) d4RE))),
    RE.seq d4RE (RE.seq (RE.cls (CCls.litCI '-'))
      (RE.seq d12RE (RE.seq (RE.cls (CCls.litCI '-')) d12RE))),
    RE.seq d12RE (RE.seq (rePlus (RE.cls CCls.ws))
      (RE.seq monthAltRE (RE.seq (RE.star (RE.cls CCls.word))
        (RE.seq (rePlus (RE.cls CCls.ws)) d4RE)))) ]

/-- extractDateField (lines 294-314): the first pattern with a match wins
and its first match is handed to `new Date`.  Since the Date constructor
never throws, the catch/continue of lines 307-309 is unreachable and an
unparseable match is still returned (as an Invalid Date), never skipped. -/
def extractDateField (text : Str) : Option JSDate :=
  (datePatterns.foldl (fun acc p =>
    match acc with
    | some d => some d
    | none => (firstMatch p text).map jsNewDate) none)

def positiveWords : List Str :=
  [strL "yes", strL "positive", strL "present", strL "true",
   strL "confirmed", strL "detected", strL "found"]

def negativeWords : List Str :=
  [strL "no", strL "negative", strL "absent", strL "false",
   strL "denied", strL "not detected", strL "not found"]

/-- JS `String.prototype.includes`: substring containment. -/
def containsSub (hay needle : Str) : Bool :=
  match hay with
  | [] => needle.isEmpty
  | _ :: rest => needle.isPrefixOf hay || containsSub rest needle

/-- JS `String.prototype.indexOf`. -/
def indexOfSub (hay needle : Str) : Option Nat :=
  match hay with
  | [] => if needle.isEmpty then some 0 else none
  | _ :: rest =>
    if needle.isPrefixOf hay then some 0
    else (indexOfSub rest needle).map (· + 1)

/-- getFieldContext (lines 336-352): window of contextLength characters
around the first occurrence of the field name (literal, then with
underscores as spaces); empty when neither form occurs. -/
def getFieldContext (text : Str) (name : Str) (contextLength : Nat) : Str :=
  let searchTerms := [toLowerStr name, toLowerStr (underscoreToSpace name)]
  (searchTerms.foldl (fun acc term =>
    match acc with
    | some w => some w
    | none =>
      match indexOfSub text term with
      | some idx =>
        let start := idx - contextLength
        let stop := min text.length (idx + term.length + contextLength)
        some ((text.take stop).drop start)
      | none => none) none).getD []

/-- extractBooleanField (lines 317-333): positive substrings are scanned to
completion before any negative one is consulted; containment is plain
substring containment.  A missing field name throws inside
getFieldContext. -/
def extractBooleanField (text : Str) (f : FieldSpec) : Except Unit (Option Bool) :=
  match f.fieldName with
  | none => Except.error ()
  | some name =>
    let textLower := toLowerStr text
    let fieldContext := getFieldContext textLower name 100
    Except.ok (
      if positiveWords.any (fun w => containsSub fieldContext w) then some true
      else if negativeWords.any (fun w => containsSub fieldContext w) then some false
      else none)

/-! ## Per-field dispatch and the extracted-data map (lines 198-235) -/

/-- The switch of lines 208-221 plus the value produced; an unrecognized
fieldType leaves value null. -/
def extractFieldValue (text : Str) (f : FieldSpec) : Except Unit (Option JSValue) :=
  if f.fieldType = strL "text" then
    (extractTextField text f).map (Option.map JSValue.str)
  else if f.fieldType = strL "number" then
    (extractNumberField text f).map (Option.map JSValue.num)
  else if f.fieldType = strL "date" then
    Except.ok ((extractDateField text).map JSValue.date)
  else if f.fieldType = strL "boolean" then
    (extractBooleanField text f).map (Option.map JSValue.bool)
  else Except.ok none

/-- The extractedData container: a JS Map from fieldName (possibly the
undefined key) to value, in insertion order. -/
abbrev ExtractedData := List (Option Str × JSValue)

/-- JS `Map.prototype.set`: overwrite in place or append. -/
def mapSet (m : ExtractedData) (k : Option Str) (v : JSValue) : ExtractedData :=
  if m.any (fun kv => kv.1 = k) then
    m.map (fun kv => if kv.1 = k then (k, v) else kv)
  else m ++ [(k, v)]

/-- extractDataFromText (lines 198-235): clean the text once, then for every
field run the typed extractor inside try/catch; a throw or a null value
leaves the map untouched and the loop continues. -/
def extractDataFromText (text : Str) (template : DiseaseTemplate) : ExtractedData :=
  let cleanText := cleanExtractedText text
  template.fields.foldl (fun acc f =>
    match extractFieldValue cleanText f with
    | Except.error _ => acc
    | Except.ok none => acc
    | Except.ok (some v) => mapSet acc f.fieldName v) []

/-! ## Disease identification (lines 143-195) -/

/-- The keyword loop of lines 152-169: score is the total occurrence count
over all keywords; a keyword with at least one match is recorded together
with its count. -/
def templateEval (textLower : Str) (t : DiseaseTemplate) : Nat × List (Str × Nat) :=
  t.keywords.foldl (fun acc kw =>
    let cnt := countMatches (kwRE (toLowerStr kw)) textLower
    if cnt > 0 then (acc.1 + cnt, acc.2 ++ [(kw, cnt)]) else acc) (0, [])

/-- The confidence formula of lines 172-174.  With an empty keyword list the
JS computation divides by zero: score 0 gives NaN (modelled none, on which
every comparison is false), a positive score gives Infinity and hence a
clamped confidence of 100. -/
def confidenceOf (score totalKeywords : Nat) : Option ℚ :=
  if totalKeywords = 0 then (if score = 0 then none else some 100)
  else some (min ((score : ℚ) / (totalKeywords : ℚ) * 100 + min ((score : ℚ) * 5) 30) 100)

/-- Confidence a template earns on the lowered clean text. -/
def templConf (textLower : Str) (t : DiseaseTemplate) : Option ℚ :=
  confidenceOf (templateEval textLower t).1 t.keywords.length

structure DiseaseMatch where
  template : DiseaseTemplate
  confidence : ℚ
  keywordMatches : List (Str × Nat)
deriving DecidableEq, Repr

/-- One iteration of the template loop (lines 152-186): the candidate
replaces the running best exactly when its confidence exceeds both the
running highest score and 25. -/
def identifyStep (textLower : Str) (st : Option DiseaseMatch × ℚ)
    (t : DiseaseTemplate) : Option DiseaseMatch × ℚ :=
  let ev := templateEval textLower t
  match templConf textLower t with
  | none => st
  | some c => if c > st.2 ∧ c > 25 then (some ⟨t, c, ev.2⟩, c) else st

/-- identifyDisease (lines 143-195) on an already fetched template list. -/
def identifyDisease (templates : List DiseaseTemplate) (text : Str) : Option DiseaseMatch :=
  let textLower := toLowerStr (cleanExtractedText text)
  (templates.foldl (identifyStep textLower) (none, 0)).1

/-! ## Processing orchestrator (lines 355-435)

The repository persistence calls are modelled by the final processing status
the orchestrator writes and the result value it returns; extraction from the
PDF buffer (pdf-parse / OCR, both external engines) is modelled by handing
the orchestrator the extracted text. -/

inductive ProcStatus where
  | pending : ProcStatus
  | processing : ProcStatus
  | completed : ProcStatus
  | failed : ProcStatus
deriving DecidableEq, Repr

structure MedicalRecord where
  pdfDocument : Nat
  patient : Nat
  diseaseTemplate : DiseaseTemplate
  diseaseName : Str
  extractedData : ExtractedData
  confidence : ℚ
  verified : Bool := false
deriving DecidableEq, Repr

structure ProcResult where
  success : Bool
  message : Str
  extractedText : Option Str := none
  medicalRecord : Option MedicalRecord := none
  disease : Option Str := none
  confidence : Option ℚ := none
  keywordMatches : Option (List (Str × Nat)) := none
  extractedDataCount : Option Nat := none
deriving DecidableEq, Repr

/-- processPDF (lines 355-435) after text extraction: the pair is the final
processingStatus written for the document and the returned result (error for
a thrown exception, which the catch turns into status failed before
rethrowing).  Too little text throws; no qualifying template is not an error
and completes with success false and a 500-character preview; a match
extracts data, creates the medical record and completes with success
true. -/
def processPDF (templates : List DiseaseTemplate) (pdfId userId : Nat)
    (extractedText : Str) : ProcStatus × Except Unit ProcResult :=
  if extractedText.length < 20 then (ProcStatus.failed, Except.error ())
  else
    match identifyDisease templates extractedText with
    | none =>
      (ProcStatus.completed, Except.ok
        { success := false,
          message := strL "No matching disease template found",
          extractedText := some (extractedText.take 500 ++ strL "...") })
    | some diseaseMatch =>
      let ed := extractDataFromText extractedText diseaseMatch.template
      let mrec : MedicalRecord :=
        { pdfDocument := pdfId, patient := userId,
          diseaseTemplate := diseaseMatch.template,
          diseaseName := diseaseMatch.template.diseaseName,
          extractedData := ed,
          confidence := diseaseMatch.confidence }
      (ProcStatus.completed, Except.ok
        { success := true,
          message := strL "PDF processed successfully with OCR support",
          medicalRecord := some mrec,
          disease := some diseaseMatch.template.diseaseName,
          confidence := some diseaseMatch.confidence,
          keywordMatches := some diseaseMatch.keywordMatches,
          extractedDataCount := some ed.length })

/-! ## Concrete scenario data used by several claims -/

/-- The document text of the diabetes scenario. -/
def diaText : Str := strL "Patient has diabetes, blood sugar: 180, insulin: Humalog"

/-- The custom pattern `blood sugar[:\s]+(\d+)` of the scenario template. -/
def bloodSugarPat : RE :=
  RE.seq (reLit (strL "blood sugar"))
    (RE.seq (rePlus (RE.cls CCls.colSp)) (rePlus (RE.cls CCls.digit)))

def bloodSugarField : FieldSpec :=
  { fieldName := some (strL "blood_sugar_level"), fieldType := strL "number",
    extractionPattern := some (PatSrc.wf bloodSugarPat) }

/-- The custom pattern `insulin[:\s]+([^\n\r]+)` of the scenario template. -/
def insulinField : FieldSpec :=
  { fieldName := some (strL "insulin_type"), fieldType := strL "text",
    extractionPattern := some (PatSrc.wf (textPatRE (reLit (strL "insulin")))) }

def diaTemplate : DiseaseTemplate :=
  { diseaseName := strL "Diabetes",
    keywords := [strL "diabetes", strL "blood sugar", strL "insulin"],
    fields := [bloodSugarField, insulinField] }

def diaKMs : List (Str × Nat) :=
  [(strL "diabetes", 1), (strL "blood sugar", 1), (strL "insulin", 1)]

/-! ## C5: OCR routing versus the type classification -/

/-- C5 counterexample: a document whose trimmed text has exactly 50
characters is classified as a text PDF, yet extractText still routes it to
the OCR extractor, refuting the claim that a text-classified document (50
characters or more) is returned without OCR and that OCR runs exactly on
image-classified documents. -/
theorem c5_ocr_at_exactly_50 :
    (checkPDFType (List.replicate 50 'a') 1).type = PDFType.text ∧
    extractText (List.replicate 50 'a') 1 = ExtractionMethod.ocr := by
  decide

/-- C5 amended: the OCR fallback runs exactly when the trimmed directly
extracted text has at most 50 characters; only a document whose trimmed text
is strictly longer than 50 characters has that text returned directly; the
image classification corresponds to strictly fewer than 50 characters. -/
theorem c5_ocr_iff_le_50 (rawText : Str) (pages : Nat) :
    (extractText rawText pages = ExtractionMethod.ocr ↔ (jsTrim rawText).length ≤ 50) ∧
    (50 < (jsTrim rawText).length →
      extractText rawText pages = ExtractionMethod.direct (jsTrim rawText)) ∧
    ((checkPDFType rawText pages).type = PDFType.image ↔ (jsTrim rawText).length < 50) := by
  by_cases h : (jsTrim rawText).length < 50
  · have hck : checkPDFType rawText pages =
        { type := PDFType.image, text := jsTrim rawText, pages := pages } := by
      simp [checkPDFType, h]
    have hocr : extractText rawText pages = ExtractionMethod.ocr := by
      simp [extractText, hck]
    exact ⟨⟨fun _ => by omega, fun _ => hocr⟩, fun h2 => by omega, by simp [hck, h]⟩
  · have hck : checkPDFType rawText pages =
        { type := PDFType.text, text := jsTrim rawText, pages := pages } := by
      simp [checkPDFType, h]
    by_cases h2 : 50 < (jsTrim rawText).length
    · have hdir : extractText rawText pages = ExtractionMethod.direct (jsTrim rawText) := by
        simp [extractText, hck, h2]
      refine ⟨⟨fun hocr => ?_, fun hle => by omega⟩, fun _ => hdir, by simp [hck, h]⟩
      rw [hdir] at hocr
      exact absurd hocr (by simp)
    · have hocr : extractText rawText pages = ExtractionMethod.ocr := by
        simp [extractText, hck, h2]
      exact ⟨⟨fun _ => by omega, fun _ => hocr⟩, fun hgt => absurd hgt h2, by simp [hck, h]⟩

/-- C5 witness: a 60-character document is returned directly. -/
theorem c5_ocr_iff_le_50_witness :
    50 < (jsTrim (List.replicate 60 'a')).length ∧
    extractText (List.replicate 60 'a') 3 = ExtractionMethod.direct (jsTrim (List.replicate 60 'a')) :=
  ⟨by decide, (c5_ocr_iff_le_50 (List.replicate 60 'a') 3).2.1 (by decide)⟩

/-! ## C6: date extraction never skips an unparseable match -/

/-- C6: the code is wrong and the claim matches the visible intent.  On the
text 99-99-2024 the second date pattern matches, the match is unparseable
(month 99), and extractDateField still returns it as a found date value (an
Invalid Date): since the JS Date constructor never throws, the
catch/continue meant to skip unparseable matches (lines 305-309) is dead
code. -/
theorem c6_invalid_date_returned :
    extractDateField (strL "99-99-2024") = some (jsNewDate (strL "99-99-2024")) ∧
    (jsNewDate (strL "99-99-2024")).valid = false := by
  decide

/-! ## C8: no qualifying template is not an error -/

/-- C8: when the text passes the 20-character floor but no template
qualifies, the run completes (status completed, no exception) with success
false and a preview of the first 500 characters followed by an ellipsis. -/
theorem c8_no_match_completed (templates : List DiseaseTemplate)
    (pdfId userId : Nat) (text : Str)
    (hlen : 20 ≤ text.length)
    (hnone : identifyDisease templates text = none) :
    processPDF templates pdfId userId text =
      (ProcStatus.completed,
       Except.ok { success := false,
                   message := strL "No matching disease template found",
                   extractedText := some (text.take 500 ++ strL "...") }) := by
  unfold processPDF
  rw [if_neg (by omega), hnone]

/-- C8 witness: an unrelated 28-character text against no templates. -/
theorem c8_no_match_completed_witness :
    20 ≤ (strL "completely unrelated content").length ∧
    identifyDisease [] (strL "completely unrelated content") = none ∧
    processPDF [] 1 2 (strL "completely unrelated content") =
      (ProcStatus.completed,
       Except.ok { success := false,
                   message := strL "No matching disease template found",
                   extractedText := some ((strL "completely unrelated content").take 500 ++ strL "...") }) :=
  ⟨by decide, rfl, c8_no_match_completed [] 1 2 _ (by decide) rfl⟩

/-! ## C3: confidence monotonicity and bounds -/

/-- C3 counterexample: a template with an empty keyword list earns score 0
and the JS computation divides zero by zero, so the confidence is NaN
(modelled none) and no rational confidence in the interval 0..100 exists,
refuting that the confidence always lies in that interval including for
totalKeywords = 0. -/
theorem c3_empty_template_nan :
    templConf [] { diseaseName := strL "Empty", keywords := [], fields := [] } = none ∧
    ¬ ∃ q : ℚ, templConf [] { diseaseName := strL "Empty", keywords := [], fields := [] } = some q ∧
        0 ≤ q ∧ q ≤ 100 := by
  have h : templConf [] { diseaseName := strL "Empty", keywords := [], fields := [] } = none := rfl
  exact ⟨h, by simp [h]⟩

/-- C3 amended: for a template with at least one keyword the confidence is a
real rational value, monotonically non-decreasing in the total occurrence
count and always within 0..100; only the empty keyword list yields NaN. -/
theorem c3_confidence_monotone_bounded (s s' t : Nat) (ht : 1 ≤ t) (hss : s ≤ s') :
    ∃ q q' : ℚ,
      confidenceOf s t = some q ∧ confidenceOf s' t = some q' ∧
      q ≤ q' ∧ 0 ≤ q ∧ q ≤ 100 := by
  have ht0 : t ≠ 0 := by omega
  refine ⟨min ((s : ℚ) / (t : ℚ) * 100 + min ((s : ℚ) * 5) 30) 100,
          min ((s' : ℚ) / (t : ℚ) * 100 + min ((s' : ℚ) * 5) 30) 100,
          by simp [confidenceOf, ht0], by simp [confidenceOf, ht0], ?_, ?_, ?_⟩
  · apply min_le_min _ le_rfl
    have hcast : (s : ℚ) ≤ (s' : ℚ) := by exact_mod_cast hss
    have htpos : (0 : ℚ) < (t : ℚ) := by exact_mod_cast Nat.pos_of_ne_zero ht0
    apply add_le_add
    · gcongr
    · exact min_le_min (by gcongr) le_rfl
  · apply le_min _ (by norm_num)
    apply add_nonneg
    · positivity
    · exact le_min (by positivity) (by norm_num)
  · exact min_le_right _ _

/-- C3 witness: scores 1 and 2 over one keyword. -/
theorem c3_confidence_monotone_bounded_witness :
    (1 : Nat) ≤ 1 ∧ (1 : Nat) ≤ 2 ∧
    ∃ q q' : ℚ,
      confidenceOf 1 1 = some q ∧ confidenceOf 2 1 = some q' ∧
      q ≤ q' ∧ 0 ≤ q ∧ q ≤ 100 :=
  ⟨le_rfl, by norm_num, c3_confidence_monotone_bounded 1 2 1 le_rfl (by norm_num)⟩

/-! ## C10: boolean extraction is substring containment, positives first -/

/-- containsSub is exactly substring containment. -/
theorem containsSub_iff (hay needle : Str) :
    containsSub hay needle = true ↔ ∃ pre post, hay = pre ++ needle ++ post := by
  induction hay with
  | nil =>
    cases needle with
    | nil => simp [containsSub]
    | cons c nd =>
      simp only [containsSub, List.isEmpty_cons]
      constructor
      · intro h; cases h
      · rintro ⟨pre, post, h⟩
        exact absurd h (by simp)
  | cons c rest ih =>
    simp only [containsSub, Bool.or_eq_true, ih]
    constructor
    · rintro (hpre | ⟨pre, post, rfl⟩)
      · obtain ⟨post, hpost⟩ := List.isPrefixOf_iff_prefix.mp hpre
        exact ⟨[], post, by simp [hpost.symm]⟩
      · exact ⟨c :: pre, post, by simp⟩
    · rintro ⟨pre, post, heq⟩
      cases pre with
      | nil =>
        left
        apply List.isPrefixOf_iff_prefix.mpr
        exact ⟨post, by simpa using heq.symm⟩
      | cons p ps =>
        right
        refine ⟨ps, post, ?_⟩
        have := heq
        simp only [List.cons_append] at this
        exact (List.cons.injEq .. ▸ this).2

/-- A substring of a substring is a substring. -/
theorem containsSub_of_append (ctx a b c : Str)
    (h : containsSub ctx (a ++ b ++ c) = true) : containsSub ctx b = true := by
  rw [containsSub_iff] at h ⊢
  obtain ⟨pre, post, hctx⟩ := h
  exact ⟨pre ++ a, c ++ post, by simp [hctx, List.append_assoc]⟩

/-- C10: sentiment matching in extractBooleanField is plain substring
containment with the positive list scanned to completion first: a context
window containing the phrase not detected (or not found) yields true via the
positive substrings detected and found, and a bare substring occurrence of
no (even inside another word) decides false whenever no positive substring
occurs at all. -/
theorem c10_boolean_substring :
    (∀ (text : Str) (f : FieldSpec) (name : Str), f.fieldName = some name →
      (containsSub (getFieldContext (toLowerStr text) name 100) (strL "not detected") = true ∨
       containsSub (getFieldContext (toLowerStr text) name 100) (strL "not found") = true) →
      extractBooleanField text f = Except.ok (some true))
    ∧ (∀ (text : Str) (f : FieldSpec) (name : Str), f.fieldName = some name →
      (∀ w ∈ positiveWords, containsSub (getFieldContext (toLowerStr text) name 100) w = false) →
      containsSub (getFieldContext (toLowerStr text) name 100) (strL "no") = true →
      extractBooleanField text f = Except.ok (some false)) := by
  constructor
  · rintro text ⟨fn, ft, rq, ep⟩ name hname hcont
    cases hname
    have hany : positiveWords.any
        (fun w => containsSub (getFieldContext (toLowerStr text) name 100) w) = true := by
      apply List.any_eq_true.mpr
      rcases hcont with hc | hc
      · refine ⟨strL "detected", by simp [positiveWords], ?_⟩
        have he : strL "not detected" = strL "not " ++ strL "detected" ++ [] := by decide
        rw [he] at hc
        exact containsSub_of_append _ _ _ _ hc
      · refine ⟨strL "found", by simp [positiveWords], ?_⟩
        have he : strL "not found" = strL "not " ++ strL "found" ++ [] := by decide
        rw [he] at hc
        exact containsSub_of_append _ _ _ _ hc
    simp only [extractBooleanField]
    rw [if_pos hany]
  · rintro text ⟨fn, ft, rq, ep⟩ name hname hposf hno
    cases hname
    have hanyf : positiveWords.any
        (fun w => containsSub (getFieldContext (toLowerStr text) name 100) w) = false := by
      apply List.any_eq_false.mpr
      intro w hw
      simp [hposf w hw]
    have hneg : negativeWords.any
        (fun w => containsSub (getFieldContext (toLowerStr text) name 100) w) = true :=
      List.any_eq_true.mpr ⟨strL "no", by simp [negativeWords], hno⟩
    simp only [extractBooleanField]
    rw [if_neg (by simp [hanyf]), if_pos hneg]

/-- C10 witness: the window around tumor in tumor colon not detected
contains the positive substring detected and yields true; the word anomaly
contains the substring no and no positive word, yielding false. -/
theorem c10_boolean_substring_witness :
    extractBooleanField (strL "tumor: not detected")
      { fieldName := some (strL "tumor"), fieldType := strL "boolean" } = Except.ok (some true) ∧
    extractBooleanField (strL "anomaly")
      { fieldName := some (strL "anomaly"), fieldType := strL "boolean" } = Except.ok (some false) :=
  ⟨c10_boolean_substring.1 _ _ _ rfl (Or.inl (by decide)),
   c10_boolean_substring.2 _ _ _ rfl (by decide) (by decide)⟩

/-! ## C7: number extraction scans the full match, not the capture -/

/-- parseFloat of a pure digit string is its numeric value. -/
theorem ratOfNumStr_digits (s : Str) (h : ∀ c ∈ s, ('0' ≤ c && c ≤ '9') = true) :
    ratOfNumStr s = (digitsToNat s : ℚ) := by
  unfold ratOfNumStr
  rw [List.takeWhile_eq_self_iff.mpr h, List.dropWhile_eq_nil_iff.mpr h]
  simp [digitsToNat]

/-- The value one pattern of the number chain produces: the first number
substring scanned inside the FULL matched text (label included), parsed as a
rational. -/
def numberFromRE (text : Str) (re : RE) : Option ℚ :=
  (firstMatch re text).bind (fun m => (scanNumber m).map ratOfNumStr)

def firstSome {α : Type} : List (Option α) → Option α
  | [] => none
  | some a :: _ => some a
  | none :: rest => firstSome rest

/-- The number-pattern loop is the first defined value of numberFromRE over
the compilable patterns of the chain. -/
theorem runNumPatterns_eq (text : Str) : ∀ ps : List (Except Unit RE),
    runNumPatterns text ps =
      firstSome ((ps.filterMap Except.toOption).map (numberFromRE text))
  | [] => rfl
  | Except.error e :: rest => by
      simp [runNumPatterns, Except.toOption, runNumPatterns_eq text rest]
  | Except.ok re :: rest => by
      simp only [runNumPatterns, Except.toOption, List.filterMap_cons, List.map_cons]
      cases hfm : firstMatch re text with
      | none => simp [numberFromRE, hfm, firstSome, runNumPatterns_eq text rest]
      | some m =>
        cases hsn : scanNumber m with
        | none => simp [numberFromRE, hfm, hsn, firstSome, runNumPatterns_eq text rest]
        | some ns => simp [numberFromRE, hfm, hsn, firstSome]

/-- C7 amended: the returned value of a number field is the parse of the
first substring matching a number inside the FULL matched substring of the
first pattern in the fallback chain whose full match contains such a
substring — including digits occurring in the matched field label itself,
since a g-flagged match call yields no capture groups. -/
theorem c7_number_scan_full_match (text : Str) (f : FieldSpec) (name : Str)
    (hname : f.fieldName = some name) :
    extractNumberField text f =
      Except.ok (firstSome (((numFieldPatterns f name).filterMap Except.toOption).map
        (numberFromRE text))) := by
  rcases f with ⟨fn, ft, rq, ep⟩
  cases hname
  simp only [extractNumberField]
  rw [runNumPatterns_eq]

def vitB12Field : FieldSpec :=
  { fieldName := some (strL "b12_level"), fieldType := strL "number",
    extractionPattern := some (PatSrc.wf (numPatRE (reLit (strL "vitamin b12")))) }

/-- C7 counterexample: for the custom pattern vitamin b12 colon-space
number, on the text vitamin b12: 500 the capture group holds 500, yet the
code scans the full match (vitamin b12: 500) and returns 12, the digits of
the label — refuting that the scan is confined to the captured region. -/
theorem c7_label_digits_win :
    extractNumberField (strL "vitamin b12: 500") vitB12Field = Except.ok (some 12) ∧
    extractNumberField (strL "vitamin b12: 500") vitB12Field ≠ Except.ok (some 500) := by
  have hfm : firstMatch (numPatRE (reLit (strL "vitamin b12"))) (strL "vitamin b12: 500") =
      some (strL "vitamin b12: 500") := by decide
  have hsn : scanNumber (strL "vitamin b12: 500") = some (strL "12") := by decide
  have hq : ratOfNumStr (strL "12") = 12 := by
    rw [ratOfNumStr_digits _ (by decide), show digitsToNat (strL "12") = 12 from by decide]
    norm_num
  have hrun : extractNumberField (strL "vitamin b12: 500") vitB12Field =
      Except.ok (some (ratOfNumStr (strL "12"))) := by
    simp only [vitB12Field, extractNumberField, numFieldPatterns, compilePat,
      runNumPatterns, hfm, hsn]
  rw [hrun, hq]
  refine ⟨rfl, fun hcontra => ?_⟩
  simp at hcontra

/-- C7 witness for the amended characterization, at the counterexample
input. -/
theorem c7_number_scan_full_match_witness :
    vitB12Field.fieldName = some (strL "b12_level") ∧
    extractNumberField (strL "vitamin b12: 500") vitB12Field =
      Except.ok (firstSome (((numFieldPatterns vitB12Field (strL "b12_level")).filterMap
        Except.toOption).map (numberFromRE (strL "vitamin b12: 500")))) :=
  ⟨rfl, c7_number_scan_full_match _ _ _ rfl⟩

/-! ## C1: the diabetes scenario -/

/-- The Diabetes template scores one occurrence per keyword on the scenario
text. -/
theorem dia_templateEval :
    templateEval (toLowerStr (cleanExtractedText diaText)) diaTemplate = (3, diaKMs) := by
  decide

/-- Score 3 of 3 keywords gives confidence min 100 plus bonus 15 clamped to
100. -/
theorem dia_templConf :
    templConf (toLowerStr (cleanExtractedText diaText)) diaTemplate = some 100 := by
  simp only [templConf, dia_templateEval]
  show confidenceOf 3 3 = some 100
  simp only [confidenceOf]
  norm_num [min_def]

/-- The Diabetes template is the identified match on the scenario text. -/
theorem dia_identify :
    identifyDisease [diaTemplate] diaText = some ⟨diaTemplate, 100, diaKMs⟩ := by
  simp only [identifyDisease, List.foldl, identifyStep, dia_templConf]
  rw [if_pos (by norm_num)]
  simp [dia_templateEval]

/-- C1 counterexample: the text-field value for insulin_type keeps the
pattern label, because the stripping regex is generated from the FIELD NAME
(insulin flexible-whitespace type) and not from the custom pattern label
(insulin), so it fails to match and nothing is stripped: the extracted
value is insulin colon-space Humalog, not Humalog. -/
theorem c1_insulin_label_not_stripped :
    extractTextField (cleanExtractedText diaText) insulinField ≠
      Except.ok (some (strL "Humalog")) := by
  decide

/-- C1 amended: on the scenario text the Diabetes template scores 3 of 3
with confidence 100 and is the identified match; blood_sugar_level extracts
as 180; insulin_type extracts as the string insulin colon-space Humalog
(label retained); the resulting data map holds exactly those two entries. -/
theorem c1_diabetes_scenario :
    templateEval (toLowerStr (cleanExtractedText diaText)) diaTemplate = (3, diaKMs) ∧
    templConf (toLowerStr (cleanExtractedText diaText)) diaTemplate = some 100 ∧
    identifyDisease [diaTemplate] diaText = some ⟨diaTemplate, 100, diaKMs⟩ ∧
    extractNumberField (cleanExtractedText diaText) bloodSugarField = Except.ok (some 180) ∧
    extractTextField (cleanExtractedText diaText) insulinField =
      Except.ok (some (strL "insulin: Humalog")) ∧
    extractDataFromText diaText diaTemplate =
      [(some (strL "blood_sugar_level"), JSValue.num 180),
       (some (strL "insulin_type"), JSValue.str (strL "insulin: Humalog"))] := by
  have hEval := dia_templateEval
  have hconf := dia_templConf
  have hnumfm : firstMatch bloodSugarPat (cleanExtractedText diaText) =
      some (strL "blood sugar: 180") := by decide
  have hnumsn : scanNumber (strL "blood sugar: 180") = some (strL "180") := by decide
  have hq180 : ratOfNumStr (strL "180") = 180 := by
    rw [ratOfNumStr_digits _ (by decide), show digitsToNat (strL "180") = 180 from by decide]
    norm_num
  have hnum : extractNumberField (cleanExtractedText diaText) bloodSugarField =
      Except.ok (some 180) := by
    have : extractNumberField (cleanExtractedText diaText) bloodSugarField =
        Except.ok (some (ratOfNumStr (strL "180"))) := by
      simp only [bloodSugarField, extractNumberField, numFieldPatterns, compilePat,
        runNumPatterns, hnumfm, hnumsn]
    rw [this, hq180]
  have htext : extractTextField (cleanExtractedText diaText) insulinField =
      Except.ok (some (strL "insulin: Humalog")) := by decide
  have hID := dia_identify
  have hv1 : extractFieldValue (cleanExtractedText diaText) bloodSugarField =
      Except.ok (some (JSValue.num 180)) := by
    simp only [extractFieldValue]
    rw [if_neg (by decide), if_pos (by decide), hnum]
    rfl
  have hv2 : extractFieldValue (cleanExtractedText diaText) insulinField =
      Except.ok (some (JSValue.str (strL "insulin: Humalog"))) := by
    simp only [extractFieldValue]
    rw [if_pos (by decide), htext]
    rfl
  have hdata : extractDataFromText diaText diaTemplate =
      [(some (strL "blood_sugar_level"), JSValue.num 180),
       (some (strL "insulin_type"), JSValue.str (strL "insulin: Humalog"))] := by
    simp only [extractDataFromText, diaTemplate, List.foldl, hv1, hv2]
    simp only [mapSet, List.any_nil, List.any_cons]
    norm_num
    rw [if_neg (by decide)]
    rfl
  exact ⟨hEval, hconf, hID, hnum, htext, hdata⟩

/-! ## C9: per-field extraction failures are isolated -/

/-- C9: a field whose extraction throws contributes nothing to the extracted
data (it is absent, and the map has no null values by construction), the
remaining fields are extracted exactly as if the throwing field were not
there, and on any successful match the orchestrator still persists a
MedicalRecord carrying exactly that map. -/
theorem c9_field_failure_isolated :
    (∀ (text dn : Str) (kws : List Str) (pre post : List FieldSpec) (f : FieldSpec),
      extractFieldValue (cleanExtractedText text) f = Except.error () →
      extractDataFromText text ⟨dn, kws, pre ++ f :: post⟩ =
        extractDataFromText text ⟨dn, kws, pre ++ post⟩)
    ∧ (∀ (templates : List DiseaseTemplate) (pdfId userId : Nat) (text : Str)
        (dm : DiseaseMatch),
      ¬ text.length < 20 →
      identifyDisease templates text = some dm →
      processPDF templates pdfId userId text =
        (ProcStatus.completed, Except.ok
          { success := true,
            message := strL "PDF processed successfully with OCR support",
            medicalRecord := some
              { pdfDocument := pdfId, patient := userId,
                diseaseTemplate := dm.template, diseaseName := dm.template.diseaseName,
                extractedData := extractDataFromText text dm.template,
                confidence := dm.confidence },
            disease := some dm.template.diseaseName,
            confidence := some dm.confidence,
            keywordMatches := some dm.keywordMatches,
            extractedDataCount := some (extractDataFromText text dm.template).length })) := by
  constructor
  · intro text dn kws pre post f herr
    simp only [extractDataFromText]
    rw [List.foldl_append, List.foldl_append, List.foldl_cons]
    simp only [herr]
  · intro templates pdfId userId text dm hlen hdm
    unfold processPDF
    rw [if_neg hlen, hdm]

/-- C9 witness: a number field with an undefined field name throws; dropping
it from the Diabetes template field list leaves the extracted data
unchanged, and the matched scenario run persists the record. -/
theorem c9_field_failure_isolated_witness :
    extractFieldValue (cleanExtractedText diaText)
      { fieldName := none, fieldType := strL "number" } = Except.error () ∧
    extractDataFromText diaText
      ⟨strL "Diabetes", [strL "diabetes"],
       [bloodSugarField, { fieldName := none, fieldType := strL "number" }, insulinField]⟩ =
      extractDataFromText diaText
        ⟨strL "Diabetes", [strL "diabetes"], [bloodSugarField, insulinField]⟩ ∧
    processPDF [diaTemplate] 7 8 diaText =
      (ProcStatus.completed, Except.ok
        { success := true,
          message := strL "PDF processed successfully with OCR support",
          medicalRecord := some
            { pdfDocument := 7, patient := 8,
              diseaseTemplate := diaTemplate, diseaseName := diaTemplate.diseaseName,
              extractedData := extractDataFromText diaText diaTemplate,
              confidence := 100 },
          disease := some diaTemplate.diseaseName,
          confidence := some 100,
          keywordMatches := some diaKMs,
          extractedDataCount := some (extractDataFromText diaText diaTemplate).length }) :=
  ⟨by decide,
   c9_field_failure_isolated.1 diaText (strL "Diabetes") [strL "diabetes"]
     [bloodSugarField] [insulinField] _ (by decide),
   c9_field_failure_isolated.2 [diaTemplate] 7 8 diaText ⟨diaTemplate, 100, diaKMs⟩
     (by decide) dia_identify⟩

/-! ## C2: selection discipline of the disease matcher -/

/-- Invariant of the template loop: either no processed template beat the
25 threshold and the state is still empty, or the state holds the earliest
processed template attaining the running maximum, every earlier template
having a strictly smaller confidence and every later processed one at most
its confidence. -/
def MatcherInv (tl : Str) (seen : List DiseaseTemplate)
    (st : Option DiseaseMatch × ℚ) : Prop :=
  (st = (none, 0) ∧ ∀ t ∈ seen, ∀ q : ℚ, templConf tl t = some q → q ≤ 25)
  ∨ (∃ bm pre post, st = (some bm, bm.confidence) ∧ seen = pre ++ bm.template :: post ∧
      25 < bm.confidence ∧ templConf tl bm.template = some bm.confidence ∧
      (∀ t ∈ pre, ∀ q : ℚ, templConf tl t = some q → q < bm.confidence) ∧
      (∀ t ∈ post, ∀ q : ℚ, templConf tl t = some q → q ≤ bm.confidence))

theorem matcherInv_step (tl : Str) (seen : List DiseaseTemplate)
    (st : Option DiseaseMatch × ℚ) (t : DiseaseTemplate)
    (h : MatcherInv tl seen st) : MatcherInv tl (seen ++ [t]) (identifyStep tl st t) := by
  cases hc : templConf tl t with
  | none =>
    have hstep : identifyStep tl st t = st := by
      simp only [identifyStep, hc]
    rw [hstep]
    rcases h with ⟨hst, hall⟩ | ⟨bm, pre, post, hst, hseen, hgt, hcbm, hpre, hpost⟩
    · left
      refine ⟨hst, fun t' ht' q hq => ?_⟩
      rcases List.mem_append.mp ht' with h1 | h2
      · exact hall t' h1 q hq
      · have : t' = t := by simpa using h2
        subst this
        rw [hc] at hq
        cases hq
    · right
      refine ⟨bm, pre, post ++ [t], hst, by simp [hseen], hgt, hcbm, hpre,
        fun t' ht' q hq => ?_⟩
      rcases List.mem_append.mp ht' with h1 | h2
      · exact hpost t' h1 q hq
      · have : t' = t := by simpa using h2
        subst this
        rw [hc] at hq
        cases hq
  | some c =>
    by_cases hcond : c > st.2 ∧ c > 25
    · have hstep : identifyStep tl st t = (some ⟨t, c, (templateEval tl t).2⟩, c) := by
        simp only [identifyStep, hc]
        rw [if_pos hcond]
      rw [hstep]
      rcases h with ⟨hst, hall⟩ | ⟨bm, pre, post, hst, hseen, hgt, hcbm, hpre, hpost⟩
      · right
        refine ⟨⟨t, c, (templateEval tl t).2⟩, seen, [], rfl, by simp, hcond.2, hc,
          fun t' ht' q hq => ?_, by simp⟩
        have hle := hall t' ht' q hq
        have : (25 : ℚ) < c := hcond.2
        linarith
      · right
        have hbmlt : bm.confidence < c := by
          have h2 := hcond.1
          rw [hst] at h2
          exact h2
        refine ⟨⟨t, c, (templateEval tl t).2⟩, pre ++ bm.template :: post, [], rfl,
          by simp [hseen], hcond.2, hc, fun t' ht' q hq => ?_, by simp⟩
        rcases List.mem_append.mp ht' with h1 | h2
        · have := hpre t' h1 q hq
          linarith
        · rcases List.mem_cons.mp h2 with h3 | h4
          · subst h3
            rw [hcbm] at hq
            have : q = bm.confidence := by injection hq.symm
            linarith
          · have := hpost t' h4 q hq
            linarith
    · have hstep : identifyStep tl st t = st := by
        simp only [identifyStep, hc]
        rw [if_neg hcond]
      rw [hstep]
      rcases h with ⟨hst, hall⟩ | ⟨bm, pre, post, hst, hseen, hgt, hcbm, hpre, hpost⟩
      · left
        refine ⟨hst, fun t' ht' q hq => ?_⟩
        rcases List.mem_append.mp ht' with h1 | h2
        · exact hall t' h1 q hq
        · have : t' = t := by simpa using h2
          subst this
          rw [hc] at hq
          have hqc : q = c := by injection hq.symm
          subst hqc
          rw [hst] at hcond
          simp only [not_and, not_lt] at hcond
          by_cases hq0 : (0 : ℚ) < q
          · exact hcond hq0
          · push_neg at hq0
            linarith
      · right
        refine ⟨bm, pre, post ++ [t], hst, by simp [hseen], hgt, hcbm, hpre,
          fun t' ht' q hq => ?_⟩
        rcases List.mem_append.mp ht' with h1 | h2
        · exact hpost t' h1 q hq
        · have : t' = t := by simpa using h2
          subst this
          rw [hc] at hq
          have hqc : q = c := by injection hq.symm
          subst hqc
          rw [hst] at hcond
          simp only [not_and, not_lt] at hcond
          by_cases hqbm : bm.confidence < q
          · have := hcond hqbm
            linarith
          · push_neg at hqbm
            exact hqbm

theorem matcherInv_fold (tl : Str) :
    ∀ (ts seen : List DiseaseTemplate) (st : Option DiseaseMatch × ℚ),
      MatcherInv tl seen st →
      MatcherInv tl (seen ++ ts) (List.foldl (identifyStep tl) st ts)
  | [], seen, st, h => by simpa using h
  | t :: ts, seen, st, h => by
    have h1 := matcherInv_step tl seen st t h
    have h2 := matcherInv_fold tl ts (seen ++ [t]) (identifyStep tl st t) h1
    simpa [List.append_assoc] using h2

/-- C2: the matcher returns a template only if its confidence strictly
exceeds 25 and strictly exceeds the confidence of every earlier-iterated
template (so a confidence of exactly 25 never qualifies and on ties the
earlier template wins, every later template reaching at most the returned
confidence), and whenever some template has a real confidence above 25 a
match is returned. -/
theorem c2_matcher_selection (templates : List DiseaseTemplate) (text : Str) :
    (∀ bm, identifyDisease templates text = some bm →
      25 < bm.confidence ∧
      ∃ pre post, templates = pre ++ bm.template :: post ∧
        templConf (toLowerStr (cleanExtractedText text)) bm.template = some bm.confidence ∧
        (∀ t ∈ pre, ∀ q : ℚ,
          templConf (toLowerStr (cleanExtractedText text)) t = some q → q < bm.confidence) ∧
        (∀ t ∈ post, ∀ q : ℚ,
          templConf (toLowerStr (cleanExtractedText text)) t = some q → q ≤ bm.confidence))
    ∧ (∀ t ∈ templates, ∀ q : ℚ,
        templConf (toLowerStr (cleanExtractedText text)) t = some q → 25 < q →
        ∃ bm, identifyDisease templates text = some bm) := by
  have hInv := matcherInv_fold (toLowerStr (cleanExtractedText text)) templates [] (none, 0)
    (Or.inl ⟨rfl, by simp⟩)
  simp only [List.nil_append] at hInv
  constructor
  · intro bm hbm
    simp only [identifyDisease] at hbm
    rcases hInv with ⟨hst, _⟩ | ⟨bm', pre, post, hst, hseen, hgt, hcbm, hpre, hpost⟩
    · rw [hst] at hbm
      cases hbm
    · rw [hst] at hbm
      have hbm' : bm' = bm := by simpa using hbm
      subst hbm'
      exact ⟨hgt, pre, post, hseen, hcbm, hpre, hpost⟩
  · intro t ht q hq hq25
    rcases hInv with ⟨hst, hall⟩ | ⟨bm', pre, post, hst, hseen, hgt, hcbm, hpre, hpost⟩
    · have := hall t ht q hq
      linarith
    · refine ⟨bm', ?_⟩
      simp only [identifyDisease]
      rw [hst]

/-- C2 witness: the scenario match has confidence 100, strictly above 25,
and the completeness direction fires on the Diabetes template. -/
theorem c2_matcher_selection_witness :
    identifyDisease [diaTemplate] diaText = some ⟨diaTemplate, 100, diaKMs⟩ ∧
    (25 : ℚ) < 100 ∧
    ∃ bm, identifyDisease [diaTemplate] diaText = some bm :=
  ⟨dia_identify,
   ((c2_matcher_selection [diaTemplate] diaText).1 _ dia_identify).1,
   (c2_matcher_selection [diaTemplate] diaText).2 diaTemplate (by simp) 100
     dia_templConf (by norm_num)⟩

/-! ## C4: normalizer idempotence -/

/-- Every character the whitespace collapse emits is either the replacement
space or a non-whitespace character of the input. -/
theorem mem_collapseAux : ∀ (b : Bool) (l : Str) (c : Char), c ∈ collapseAux b l →
    c = ' ' ∨ (c ∈ l ∧ isJsSpace c = false)
  | _, [], c, h => by cases h
  | b, d :: rest, c, h => by
    by_cases hws : isJsSpace d
    · cases b with
      | true =>
        simp only [collapseAux, if_pos hws] at h
        rcases mem_collapseAux true rest c h with h1 | ⟨h2, h3⟩
        · exact Or.inl h1
        · exact Or.inr ⟨List.mem_cons_of_mem _ h2, h3⟩
      | false =>
        simp only [collapseAux, if_pos hws] at h
        rcases List.mem_cons.mp h with h1 | h1
        · exact Or.inl h1
        · rcases mem_collapseAux true rest c h1 with h2 | ⟨h3, h4⟩
          · exact Or.inl h2
          · exact Or.inr ⟨List.mem_cons_of_mem _ h3, h4⟩
    · simp only [collapseAux, if_neg hws] at h
      rcases List.mem_cons.mp h with h1 | h1
      · subst h1
        exact Or.inr ⟨List.mem_cons_self _ _, by simpa using hws⟩
      · rcases mem_collapseAux false rest c h1 with h2 | ⟨h3, h4⟩
        · exact Or.inl h2
        · exact Or.inr ⟨List.mem_cons_of_mem _ h3, h4⟩

/-- Without newlines, the empty-line removal scan is the identity. -/
theorem removeEmptyLinesGo_id : ∀ (fuel : Nat) (m : Str), (∀ c ∈ m, c ≠ '\n') →
    removeEmptyLinesGo fuel m = m
  | _, [], _ => by cases ‹Nat› <;> rfl
  | 0, _ :: _, _ => rfl
  | fuel + 1, c :: rest, h => by
    have hc : c ≠ '\n' := h c (List.mem_cons_self _ _)
    simp only [removeEmptyLinesGo, if_neg hc]
    rw [removeEmptyLinesGo_id fuel rest (fun d hd => h d (List.mem_cons_of_mem _ hd))]

/-- No two adjacent whitespace characters, and every whitespace character is
the plain space. -/
def sspaced : Str → Bool
  | [] => true
  | [c] => !isJsSpace c || c == ' '
  | c :: d :: rest => (!isJsSpace c || (c == ' ' && !isJsSpace d)) && sspaced (d :: rest)

theorem sspaced_tail {c : Char} {r : Str} (h : sspaced (c :: r) = true) :
    sspaced r = true := by
  cases r with
  | nil => rfl
  | cons d rest =>
    simp only [sspaced, Bool.and_eq_true] at h
    exact h.2

theorem sspaced_cons_nonws {c : Char} {X : Str} (hc : isJsSpace c = false)
    (hX : sspaced X = true) : sspaced (c :: X) = true := by
  cases X with
  | nil => simp [sspaced, hc]
  | cons d rest => simp [sspaced, hc, hX]

theorem sspaced_cons_space {X : Str}
    (hhead : X = [] ∨ ∃ d r, X = d :: r ∧ isJsSpace d = false)
    (hX : sspaced X = true) : sspaced (' ' :: X) = true := by
  rcases hhead with rfl | ⟨d, r, rfl, hd⟩
  · decide
  · simp [sspaced, hd, hX]

/-- The collapse output is single-spaced, and in-run mode it never starts
with whitespace. -/
theorem collapse_sspaced : ∀ l : Str,
    sspaced (collapseAux false l) = true ∧ sspaced (collapseAux true l) = true ∧
    ∀ c r, collapseAux true l = c :: r → isJsSpace c = false
  | [] => ⟨rfl, rfl, fun c r h => by cases h⟩
  | d :: rest => by
    obtain ⟨ih1, ih2, ih3⟩ := collapse_sspaced rest
    by_cases hws : isJsSpace d
    · refine ⟨?_, ?_, ?_⟩
      · simp only [collapseAux, if_pos hws]
        apply sspaced_cons_space _ ih2
        cases hcol : collapseAux true rest with
        | nil => exact Or.inl rfl
        | cons e r' => exact Or.inr ⟨e, r', rfl, ih3 e r' hcol⟩
      · simp only [collapseAux, if_pos hws]
        exact ih2
      · intro c r h
        simp only [collapseAux, if_pos hws] at h
        exact ih3 c r h
    · have hws' : isJsSpace d = false := by simpa using hws
      refine ⟨?_, ?_, ?_⟩
      · simp only [collapseAux, if_neg hws]
        exact sspaced_cons_nonws hws' ih1
      · simp only [collapseAux, if_neg hws]
        exact sspaced_cons_nonws hws' ih1
      · intro c r h
        simp only [collapseAux, if_neg hws] at h
        injection h with h1 h2
        rw [← h1]
        exact hws'

/-- A single-spaced string is a fixed point of the whitespace collapse. -/
theorem collapse_fixed : ∀ m : Str, sspaced m = true → collapseAux false m = m
  | [], _ => rfl
  | [c], h => by
    by_cases hws : isJsSpace c
    · have hc : c = ' ' := by
        simp only [sspaced, hws, Bool.not_true, Bool.false_or] at h
        exact eq_of_beq h
      subst hc
      rfl
    · simp only [collapseAux, if_neg hws]
  | c :: d :: rest, h => by
    have hpair : (!isJsSpace c || (c == ' ' && !isJsSpace d)) = true := by
      simp only [sspaced, Bool.and_eq_true] at h
      exact h.1
    have htail : sspaced (d :: rest) = true := by
      simp only [sspaced, Bool.and_eq_true] at h
      exact h.2
    by_cases hws : isJsSpace c
    · have hc : c = ' ' ∧ isJsSpace d = false := by
        simp only [hws, Bool.not_true, Bool.false_or, Bool.and_eq_true,
          Bool.not_eq_true'] at hpair
        exact ⟨eq_of_beq hpair.1, hpair.2⟩
      obtain ⟨rfl, hd⟩ := hc
      have ihtail := collapse_fixed (d :: rest) htail
      have hrest : collapseAux false rest = rest := by
        simp only [collapseAux, if_neg (by simp [hd] : ¬ isJsSpace d = true)] at ihtail
        injection ihtail
      simp [collapseAux, hws, hd, hrest]
    · simp only [collapseAux, if_neg hws]
      rw [← collapse_fixed (d :: rest) htail]
      simp only [collapseAux]

/-- trimEnd keeps the head of its input when the result is non-empty. -/
theorem trimEnd_head : ∀ (d : Char) (r : Str), trimEnd (d :: r) ≠ [] →
    ∃ t, trimEnd (d :: r) = d :: t := by
  intro d r hne
  by_cases h : trimEnd r = []
  · by_cases hws : isJsSpace d
    · exact absurd (by simp [trimEnd, h, hws]) hne
    · exact ⟨[], by simp [trimEnd, h, hws]⟩
  · exact ⟨trimEnd r, by simp [trimEnd, h]⟩

theorem sspaced_trimEnd : ∀ m : Str, sspaced m = true → sspaced (trimEnd m) = true
  | [], _ => rfl
  | c :: r, h => by
    by_cases hte : trimEnd r = []
    · by_cases hws : isJsSpace c
      · simp [trimEnd, hte, hws, sspaced]
      · simp [trimEnd, hte, hws, sspaced]
    · simp only [trimEnd, if_neg hte]
      cases r with
      | nil => exact absurd rfl hte
      | cons d r1 =>
        obtain ⟨t, ht⟩ := trimEnd_head d r1 hte
        rw [ht]
        have htail : sspaced (trimEnd (d :: r1)) = true :=
          sspaced_trimEnd (d :: r1) (sspaced_tail h)
        rw [ht] at htail
        cases t with
        | nil =>
          simp only [sspaced, Bool.and_eq_true] at h htail ⊢
          exact ⟨h.1, htail⟩
        | cons e t1 =>
          simp only [sspaced, Bool.and_eq_true] at h htail ⊢
          exact ⟨h.1, htail⟩

theorem trimEnd_idem : ∀ m : Str, trimEnd (trimEnd m) = trimEnd m
  | [] => rfl
  | c :: r => by
    by_cases hte : trimEnd r = []
    · by_cases hws : isJsSpace c
      · simp [trimEnd, hte, hws]
      · simp [trimEnd, hte, hws]
    · simp only [trimEnd, if_neg hte]
      have ih := trimEnd_idem r
      simp only [trimEnd, ih, if_neg hte]

theorem mem_trimEnd : ∀ (m : Str) (c : Char), c ∈ trimEnd m → c ∈ m
  | [], c, h => by cases h
  | d :: r, c, h => by
    by_cases hte : trimEnd r = []
    · by_cases hws : isJsSpace d
      · simp [trimEnd, hte, hws] at h
      · simp [trimEnd, hte, hws] at h
        subst h
        exact List.mem_cons_self _ _
    · simp only [trimEnd, if_neg hte] at h
      rcases List.mem_cons.mp h with h1 | h1
      · subst h1; exact List.mem_cons_self _ _
      · exact List.mem_cons_of_mem _ (mem_trimEnd r c h1)

theorem sspaced_dropWhile {p : Char → Bool} : ∀ m : Str, sspaced m = true →
    sspaced (m.dropWhile p) = true
  | [], _ => rfl
  | c :: r, h => by
    by_cases hp : p c
    · rw [List.dropWhile_cons_of_pos hp]
      exact sspaced_dropWhile r (sspaced_tail h)
    · rw [List.dropWhile_cons_of_neg hp]
      exact h

theorem dropWhile_head_not {p : Char → Bool} : ∀ (m : Str) (c : Char) (r : Str),
    m.dropWhile p = c :: r → p c = false
  | [], c, r, h => by cases h
  | d :: m1, c, r, h => by
    by_cases hp : p d
    · rw [List.dropWhile_cons_of_pos hp] at h
      exact dropWhile_head_not m1 c r h
    · rw [List.dropWhile_cons_of_neg hp] at h
      injection h with h1 h2
      rw [← h1]
      simpa using hp

/-- On allowed-only input the empty-line removal and the character filter
are both the identity, so the normalizer is collapse followed by trim. -/
theorem clean_eq_trim_collapse (l : Str) (h : ∀ c ∈ l, isAllowedChar c = true) :
    cleanExtractedText l = jsTrim (collapseWS l) := by
  unfold cleanExtractedText
  have hmem : ∀ c ∈ collapseWS l, c = ' ' ∨ (c ∈ l ∧ isJsSpace c = false) :=
    fun c hc => mem_collapseAux false l c hc
  have hre : removeEmptyLines (collapseWS l) = collapseWS l := by
    unfold removeEmptyLines
    apply removeEmptyLinesGo_id
    intro c hc heq
    rcases hmem c hc with h1 | ⟨_, h2⟩
    · subst heq; cases h1
    · subst heq
      simp [isJsSpace] at h2
  rw [hre]
  have hfa : filterAllowed (collapseWS l) = collapseWS l := by
    unfold filterAllowed
    apply List.filter_eq_self.mpr
    intro c hc
    rcases hmem c hc with h1 | ⟨h2, _⟩
    · subst h1; decide
    · exact h c h2
  rw [hfa]

/-- C4 counterexample: removing the disallowed character of the text
a space bang space b leaves two adjacent spaces, so one more normalization
pass changes the string again: normalization is not idempotent on all
inputs. -/
theorem c4_normalize_not_idempotent :
    cleanExtractedText (cleanExtractedText (strL "a ! b")) ≠
      cleanExtractedText (strL "a ! b") := by
  decide

/-- C4 amended: on input containing only allow-list characters (so that the
character strip can never create new adjacent whitespace) the normalizer is
idempotent. -/
theorem c4_normalize_idempotent_on_allowed (l : Str)
    (h : ∀ c ∈ l, isAllowedChar c = true) :
    cleanExtractedText (cleanExtractedText l) = cleanExtractedText l := by
  rw [clean_eq_trim_collapse l h]
  have hyallowed : ∀ c ∈ jsTrim (collapseWS l), isAllowedChar c = true := by
    intro c hc
    unfold jsTrim at hc
    have hc2 : c ∈ (collapseWS l).dropWhile isJsSpace := mem_trimEnd _ c hc
    have hc3 : c ∈ collapseWS l := (List.dropWhile_sublist _).mem hc2
    rcases mem_collapseAux false l c hc3 with h1 | ⟨h2, _⟩
    · subst h1; decide
    · exact h c h2
  rw [clean_eq_trim_collapse _ hyallowed]
  have hsp : sspaced (jsTrim (collapseWS l)) = true := by
    unfold jsTrim
    exact sspaced_trimEnd _ (sspaced_dropWhile _ (collapse_sspaced l).1)
  have hcol : collapseWS (jsTrim (collapseWS l)) = jsTrim (collapseWS l) :=
    collapse_fixed _ hsp
  rw [hcol]
  unfold jsTrim
  have hdw : (trimEnd ((collapseWS l).dropWhile isJsSpace)).dropWhile isJsSpace =
      trimEnd ((collapseWS l).dropWhile isJsSpace) := by
    cases hX : (collapseWS l).dropWhile isJsSpace with
    | nil => simp [trimEnd]
    | cons d X1 =>
      by_cases hne : trimEnd (d :: X1) = []
      · simp [hne]
      · obtain ⟨t, ht⟩ := trimEnd_head d X1 hne
        rw [ht]
        have hd : isJsSpace d = false := dropWhile_head_not _ d X1 hX
        rw [List.dropWhile_cons_of_neg (by simp [hd])]
  rw [hdw]
  exact trimEnd_idem _

/-- C4 witness: a short allowed-only text. -/
theorem c4_normalize_idempotent_on_allowed_witness :
    (∀ c ∈ strL "bp: 120, ok", isAllowedChar c = true) ∧
    cleanExtractedText (cleanExtractedText (strL "bp: 120, ok")) =
      cleanExtractedText (strL "bp: 120, ok") :=
  ⟨by decide, c4_normalize_idempotent_on_allowed _ (by decide)⟩

end EMR
